import Mathlib

/-!
Shallow embedding of the Megolm group-session key-distribution core of
mautrix-appservice (`mautrix/crypto/encrypt_megolm.py`) and of the user-data
client methods (`mautrix/client/api/user_data.py`), with proofs of the
specified properties.

Collaborator modules that are not part of the two source files
(`sessions.py`, `encrypt_olm.py`, `device_lists.py`, `types.py`) are
modelled from the specification; such definitions carry a doc comment
starting with `Modelled from the spec:`.
-/

namespace Mautrix

/-- Modelled from the spec: `TrustState` — enumerated {UNSET, VERIFIED,
BLACKLISTED}, defined in the missing `mautrix/crypto/types.py`. -/
inductive TrustState where
  | unset
  | verified
  | blacklisted
deriving DecidableEq, Repr

/-- Modelled from the spec: `DeviceIdentity` — (userId, deviceId, identityKey,
signingKey, trustState), defined in the missing `mautrix/crypto/types.py`. -/
structure DeviceIdentity where
  user_id : String
  device_id : String
  identity_key : String
  signing_key : String
  trust : TrustState
deriving DecidableEq, Repr

/-- Encryption algorithm tags appearing in `encrypt_megolm.py`
(`EncryptionAlgorithm.MEGOLM_V1` and anything else a room policy may name). -/
inductive EncryptionAlgorithm where
  | megolm_v1
  | other (tag : String)
deriving DecidableEq, Repr

/-- `RoomKeyWithheldCode` values used in `encrypt_megolm.py`. -/
inductive RoomKeyWithheldCode where
  | blacklisted
  | unverified
deriving DecidableEq, Repr

/-- `RoomKeyWithheldEventContent` as constructed in
`_encrypt_group_session_for_device`. -/
structure RoomKeyWithheldEventContent where
  room_id : String
  algorithm : EncryptionAlgorithm
  session_id : String
  sender_key : String
  code : RoomKeyWithheldCode
  reason : String
deriving DecidableEq, Repr

/-- Modelled from the spec: the encrypted-key payload
`{senderIdentityKey, deviceId, ciphertext, algorithmTag}` produced by the
missing `encrypt_olm.py` (`_encrypt_olm_event`). -/
structure EncryptedOlmEventContent where
  sender_key : String
  device_id : String
  ciphertext : String
  algorithm : String
deriving DecidableEq, Repr

/-- A (user id, device id) pair, the element type of the session's two
dedupe sets. -/
abbrev UserDeviceKey := String × String

/-- Modelled from the spec: `OutboundGroupSession` (missing `sessions.py`) —
room id, session id, ratchet key material, `shared`, message counter,
creation timestamp, and the mutable rotation thresholds `maxMessages` /
`maxAge`, plus the two dedupe sets. Times and ages are in milliseconds. -/
structure OutboundGroupSession where
  room_id : String
  id : String
  session_key : String
  shared : Bool
  message_count : Nat
  creation_time : Nat
  max_messages : Nat
  max_age : Nat
  users_ignored : List UserDeviceKey
  users_shared_with : List UserDeviceKey
deriving DecidableEq, Repr

/-- Modelled from the spec: `expired` becomes true once
`messageCounter >= maxMessages` or `age >= maxAge` (missing `sessions.py`). -/
def OutboundGroupSession.expired (now : Nat) (s : OutboundGroupSession) : Bool :=
  s.max_messages ≤ s.message_count || s.max_age ≤ now - s.creation_time

/-- Modelled from the spec: the room-key payload (room id, algorithm tag,
session id, key material) shared over the pairwise channel
(`session.share_content` in the missing `sessions.py`). -/
def OutboundGroupSession.share_content (s : OutboundGroupSession) : String :=
  s.room_id ++ "|m.megolm.v1.aes-sha2|" ++ s.id ++ "|" ++ s.session_key

/-- `InboundGroupSession` as constructed in `_create_group_session`:
session key, sender's signing key, sender's identity key, room id. -/
structure InboundGroupSession where
  session_key : String
  signing_key : String
  sender_key : String
  room_id : String
deriving DecidableEq, Repr

/-- The identity of the local account (`self.account` / `self.client`) plus
the `allow_unverified_devices` policy flag of the machine. -/
structure OlmMachine where
  mxid : String
  device_id : String
  identity_key : String
  signing_key : String
  allow_unverified_devices : Bool
deriving DecidableEq, Repr

/-- `SessionEncryptResult`: `already_shared` and `key_missing` are the two
sentinel values of `encrypt_megolm.py`; the other two cases carry the
event contents. -/
inductive SessionEncryptResult where
  | already_shared
  | encrypted (content : EncryptedOlmEventContent)
  | withheld (content : RoomKeyWithheldEventContent)
  | key_missing
deriving DecidableEq, Repr

/-- Modelled from the spec: a pairwise (Olm) channel handle, opaque to this
core, looked up by identity key (`crypto_store.get_latest_session`). -/
abbrev OlmChannel := Nat

/-- Modelled from the spec: `_encrypt_olm_event` (missing `encrypt_olm.py`)
encrypts a payload over a pairwise channel; the primitive is mocked as a
tagged identity transform. -/
def encrypt_olm_event (m : OlmMachine) (channel : OlmChannel) (plaintext : String) :
    EncryptedOlmEventContent :=
  { sender_key := m.identity_key
    device_id := m.device_id
    ciphertext := toString channel ++ ":" ++ plaintext
    algorithm := "m.olm.v1.curve25519-aes-sha2" }

/-- The fixed reason string for the `UNVERIFIED` withheld code. -/
def unverifiedReason : String :=
  "This device does not encrypt messages for unverified devices"

/-- `_encrypt_group_session_for_device` from `encrypt_megolm.py`:
dedupe check, own-device check, blacklist check, unverified check, channel
lookup, then encrypt-and-record. `lookup` is the
`crypto_store.get_latest_session` collaborator (keyed by identity key).
Returns the outcome together with the (possibly mutated) session. -/
def encrypt_group_session_for_device (m : OlmMachine) (lookup : String → Option OlmChannel)
    (s : OutboundGroupSession) (user_id device_id : String) (device : DeviceIdentity) :
    SessionEncryptResult × OutboundGroupSession :=
  let key : UserDeviceKey := (user_id, device_id)
  if key ∈ s.users_ignored ∨ key ∈ s.users_shared_with then
    (.already_shared, s)
  else if user_id = m.mxid ∧ device_id = m.device_id then
    (.already_shared, { s with users_ignored := key :: s.users_ignored })
  else if device.trust = TrustState.blacklisted then
    (.withheld { room_id := s.room_id, algorithm := .megolm_v1, session_id := s.id,
                 sender_key := m.identity_key, code := .blacklisted,
                 reason := "Device is blacklisted" },
     { s with users_ignored := key :: s.users_ignored })
  else if m.allow_unverified_devices = false ∧ device.trust = TrustState.unset then
    (.withheld { room_id := s.room_id, algorithm := .megolm_v1, session_id := s.id,
                 sender_key := m.identity_key, code := .unverified,
                 reason := unverifiedReason },
     { s with users_ignored := key :: s.users_ignored })
  else
    match lookup device.identity_key with
    | none => (.key_missing, s)
    | some channel =>
        (.encrypted (encrypt_olm_event m channel s.share_content),
         { s with users_shared_with := key :: s.users_shared_with })

/-- Insertion-ordered association-list lookup, modelling Python dict access. -/
def alGet {κ α : Type} [DecidableEq κ] (m : List (κ × α)) (k : κ) : Option α :=
  match m with
  | [] => none
  | (k', v) :: rest => if k = k' then some v else alGet rest k

/-- Insertion-ordered association-list assignment (`d[k] = v`): replaces an
existing binding in place, otherwise appends, preserving iteration order. -/
def alSet {κ α : Type} [DecidableEq κ] (m : List (κ × α)) (k : κ) (v : α) :
    List (κ × α) :=
  match m with
  | [] => [(k, v)]
  | (k', v') :: rest => if k = k' then (k, v) :: rest else (k', v') :: alSet rest k v

/-- A nested user → device → value map, modelling the `defaultdict`-of-dict
accumulators of `share_group_session`. -/
abbrev UserDeviceMap (α : Type) := List (String × List (String × α))

/-- `m[u][d] = v` on a `defaultdict(lambda: \x7b\x7d)`: get-or-create the inner
dict for `u`, then assign `d`. -/
def udSet {α : Type} (m : UserDeviceMap α) (u d : String) (v : α) : UserDeviceMap α :=
  alSet m u (alSet ((alGet m u).getD []) d v)

/-- Whether `(u, d)` appears as a key in a nested user → device map. -/
def udMem {α : Type} (m : UserDeviceMap α) (u d : String) : Bool :=
  match alGet m u with
  | none => false
  | some inner => (alGet inner d).isSome

/-- Room-policy record returned by `state_store.get_encryption_info`
(`RoomEncryptionStateEventContent`): algorithm plus the two optional rotation
thresholds; `none` models an absent/null field and `some 0` a zero value,
both falsy in the Python `or` / conditional expressions that consume them. -/
structure EncryptionInfo where
  algorithm : EncryptionAlgorithm
  rotation_period_msgs : Option Nat
  rotation_period_ms : Option Nat
deriving DecidableEq, Repr

/-- Python truthiness of an optional integer: `none` and `some 0` are falsy. -/
def optTruthy (o : Option Nat) : Bool :=
  match o with
  | none => false
  | some n => n ≠ 0

/-- Lines 73–75 of `encrypt_megolm.py`:
`session.max_messages = encryption_info.rotation_period_msgs or session.max_messages`
and the analogous conditional expression for `max_age`. -/
def apply_encryption_info (info : EncryptionInfo) (s : OutboundGroupSession) :
    OutboundGroupSession :=
  { s with
    max_messages := if optTruthy info.rotation_period_msgs then
        info.rotation_period_msgs.getD s.max_messages
      else s.max_messages
    max_age := if optTruthy info.rotation_period_ms then
        info.rotation_period_ms.getD s.max_age
      else s.max_age }

/-- The crypto store state visible to `share_group_session`: outbound group
sessions keyed by room, inbound group sessions keyed by
(room, sender identity key, session id). -/
structure CryptoStore where
  outbound : List (String × OutboundGroupSession)
  inbound : List ((String × String × String) × InboundGroupSession)
deriving DecidableEq, Repr

/-- Environment of collaborators consumed by `share_group_session`:
the local machine, the clock, fresh ratchet material for a new session
(modelled from the spec: session creation "generates a new ratchet state"),
the default rotation thresholds of a fresh session (missing `sessions.py`),
the storage / policy / directory collaborators, the pairwise-channel lookup
before (`channels`) and after (`channels_after`) the bulk
`_create_outbound_sessions` call (modelled from the spec: it
"bulk-establishes new pairwise channels"), and the success of the two
fire-and-forget `send_to_device` dispatches. -/
structure ShareEnv where
  machine : OlmMachine
  now : Nat
  fresh_id : String
  fresh_key : String
  default_max_messages : Nat
  default_max_age : Nat
  get_devices : String → Option (List (String × DeviceIdentity))
  get_encryption_info : String → Option EncryptionInfo
  fetch_keys_fn : List String → Bool → List (String × List (String × DeviceIdentity))
  channels : String → Option OlmChannel
  channels_after : String → Option OlmChannel
  send_encrypted_ok : Bool
  send_withheld_ok : Bool

/-- Errors surfaced by `share_group_session`: the two `SessionShareError`
messages of the source, plus a transport failure of a `send_to_device`
dispatch (an exception propagating out of the awaited call). -/
inductive ShareError where
  | already_shared_error
  | unsupported_algorithm
  | send_failed
deriving DecidableEq, Repr

/-- Observable output of a successful `share_group_session` call: the two
bulk dispatch maps, the argument passed to `_fetch_keys` (if it was called),
and the final session. -/
structure ShareOutput where
  share_key_msgs : UserDeviceMap EncryptedOlmEventContent
  withhold_key_msgs : UserDeviceMap RoomKeyWithheldEventContent
  fetch_arg : Option (List String)
  session : OutboundGroupSession
deriving DecidableEq, Repr

/-- Result of a `share_group_session` call: an error (carrying the store at
the point of failure and the in-memory session, if one was in hand) or
success. -/
inductive ShareOutcome where
  | err (e : ShareError) (st : CryptoStore) (session : Option OutboundGroupSession)
  | ok (st : CryptoStore) (out : ShareOutput)
deriving DecidableEq, Repr

/-- The store carried by either kind of outcome. -/
def ShareOutcome.store : ShareOutcome → CryptoStore
  | .err _ st _ => st
  | .ok st _ => st

/-- `_create_group_session`: build the mirrored `InboundGroupSession` and
`put_group_session(room_id, sender_key, session_id, session)` into the store. -/
def create_group_session (st : CryptoStore) (sender_key signing_key room_id session_id
    session_key : String) : CryptoStore :=
  let inb : InboundGroupSession :=
    { session_key := session_key, signing_key := signing_key,
      sender_key := sender_key, room_id := room_id }
  { st with inbound := alSet st.inbound (room_id, sender_key, session_id) inb }

/-- `_new_outbound_group_session`: construct a fresh `OutboundGroupSession`
(unshared, zero counter, default thresholds — constructor modelled from the
spec, missing `sessions.py`) and synchronously write the mirrored inbound
session before returning. -/
def new_outbound_group_session (env : ShareEnv) (st : CryptoStore) (room_id : String) :
    OutboundGroupSession × CryptoStore :=
  let s : OutboundGroupSession :=
    { room_id := room_id, id := env.fresh_id, session_key := env.fresh_key,
      shared := false, message_count := 0, creation_time := env.now,
      max_messages := env.default_max_messages, max_age := env.default_max_age,
      users_ignored := [], users_shared_with := [] }
  (s, create_group_session st env.machine.identity_key env.machine.signing_key
        room_id s.id s.session_key)

/-- Accumulator threaded through the per-user/per-device loops of
`share_group_session`. -/
structure ShareAcc where
  session : OutboundGroupSession
  share_key_msgs : UserDeviceMap EncryptedOlmEventContent
  withhold_key_msgs : UserDeviceMap RoomKeyWithheldEventContent
  missing_sessions : UserDeviceMap DeviceIdentity
  fetch_keys : List String
deriving Repr

/-- First-pass body of the per-device loop (lines 94–101): bucket
`Encrypted` results into the delivery map, `Withheld` into the withhold map,
and `key_missing` devices into the missing pool. -/
def phase1_device (m : OlmMachine) (lookup : String → Option OlmChannel)
    (u : String) (acc : ShareAcc) (dd : String × DeviceIdentity) : ShareAcc :=
  let r := encrypt_group_session_for_device m lookup acc.session u dd.1 dd.2
  match r.1 with
  | .encrypted c =>
      { acc with session := r.2, share_key_msgs := udSet acc.share_key_msgs u dd.1 c }
  | .withheld c =>
      { acc with session := r.2, withhold_key_msgs := udSet acc.withhold_key_msgs u dd.1 c }
  | .key_missing =>
      { acc with session := r.2, missing_sessions := udSet acc.missing_sessions u dd.1 dd.2 }
  | .already_shared => { acc with session := r.2 }

/-- First-pass body of the per-user loop (lines 84–101): `None` device list
defers the user to the fetch batch, an empty list skips the user, otherwise
every device is processed. -/
def phase1_user (env : ShareEnv) (acc : ShareAcc) (u : String) : ShareAcc :=
  match env.get_devices u with
  | none => { acc with fetch_keys := acc.fetch_keys ++ [u] }
  | some [] => acc
  | some devs => devs.foldl (phase1_device env.machine env.channels u) acc

/-- Second-pass body of the per-device loop over `missing_sessions`
(lines 113–121): only `Encrypted` and `Withheld` results are folded into the
maps; missing keys are dropped at this point. -/
def phase2_device (m : OlmMachine) (lookup : String → Option OlmChannel)
    (u : String) (acc : ShareAcc) (dd : String × DeviceIdentity) : ShareAcc :=
  let r := encrypt_group_session_for_device m lookup acc.session u dd.1 dd.2
  match r.1 with
  | .encrypted c =>
      { acc with session := r.2, share_key_msgs := udSet acc.share_key_msgs u dd.1 c }
  | .withheld c =>
      { acc with session := r.2, withhold_key_msgs := udSet acc.withhold_key_msgs u dd.1 c }
  | _ => { acc with session := r.2 }

/-- Second-pass per-user loop over the missing pool. -/
def phase2_user (env : ShareEnv) (acc : ShareAcc)
    (ud : String × List (String × DeviceIdentity)) : ShareAcc :=
  ud.2.foldl (phase2_device env.machine env.channels_after ud.1) acc

/-- The first fan-out pass (lines 84–101), starting from empty accumulator
maps. -/
def share_pass1 (env : ShareEnv) (users : List String)
    (session0 : OutboundGroupSession) : ShareAcc :=
  users.foldl (phase1_user env)
    { session := session0, share_key_msgs := [], withhold_key_msgs := [],
      missing_sessions := [], fetch_keys := [] }

/-- Lines 103–107: when the fetch batch is non-empty, call
`_fetch_keys(users, include_untracked=True)` — note the argument is the full
`users` list — and assign (`missing_sessions[user_id] = devices`, a per-user
replacement) every fetched entry into the missing pool. -/
def share_missing_pool (env : ShareEnv) (users : List String) (acc1 : ShareAcc) :
    UserDeviceMap DeviceIdentity :=
  if acc1.fetch_keys.isEmpty then acc1.missing_sessions
  else
    (env.fetch_keys_fn users true).foldl
      (fun (m : UserDeviceMap DeviceIdentity)
           (ud : String × List (String × DeviceIdentity)) => alSet m ud.1 ud.2)
      acc1.missing_sessions

/-- The second fan-out pass (lines 113–121) over the merged missing pool. -/
def share_pass2 (env : ShareEnv) (acc1 : ShareAcc)
    (missing1 : UserDeviceMap DeviceIdentity) : ShareAcc :=
  missing1.foldl (phase2_user env) { acc1 with missing_sessions := missing1 }

/-- Lines 79–127 of `share_group_session`: both fan-out passes, the key
fetch, the two bulk dispatches, and — only after both — marking the session
shared and persisting it. -/
def share_phases (env : ShareEnv) (st : CryptoStore) (room_id : String)
    (users : List String) (session0 : OutboundGroupSession) : ShareOutcome :=
  let acc1 := share_pass1 env users session0
  let missing1 := share_missing_pool env users acc1
  let acc2 := share_pass2 env acc1 missing1
  if env.send_encrypted_ok = false then .err .send_failed st (some acc2.session)
  else if env.send_withheld_ok = false then .err .send_failed st (some acc2.session)
  else
    let final := { acc2.session with shared := true }
    .ok { st with outbound := alSet st.outbound room_id final }
      { share_key_msgs := acc2.share_key_msgs,
        withhold_key_msgs := acc2.withhold_key_msgs,
        fetch_arg := if acc1.fetch_keys.isEmpty then none else some users,
        session := final }

/-- The guard of lines 63–65: an outbound session exists, is marked shared,
and is not expired. -/
def share_guard (now : Nat) (sOpt : Option OutboundGroupSession) : Bool :=
  match sOpt with
  | some s => s.shared && !s.expired now
  | none => false

/-- Lines 66–67: reuse the stored session unless none exists or it is
expired, in which case create (and mirror) a fresh one. -/
def resolve_session (env : ShareEnv) (st : CryptoStore) (room_id : String) :
    OutboundGroupSession × CryptoStore :=
  match alGet st.outbound room_id with
  | some s =>
      if s.expired env.now then new_outbound_group_session env st room_id
      else (s, st)
  | none => new_outbound_group_session env st room_id

/-- `share_group_session(room_id, users)` (lines 61–127): guard, session
resolution/creation, policy application, then `share_phases`. -/
def share_group_session (env : ShareEnv) (st : CryptoStore) (room_id : String)
    (users : List String) : ShareOutcome :=
  let sOpt := alGet st.outbound room_id
  if share_guard env.now sOpt then .err .already_shared_error st sOpt
  else
    let resolved := resolve_session env st room_id
    match env.get_encryption_info room_id with
    | some info =>
        if info.algorithm ≠ EncryptionAlgorithm.megolm_v1 then
          .err .unsupported_algorithm resolved.2 (some resolved.1)
        else
          share_phases env resolved.2 room_id users (apply_encryption_info info resolved.1)
    | none => share_phases env resolved.2 room_id users resolved.1

/-- A JSON-ish value in a server response body, as consumed by the user-data
methods: scalar values, or an array of raw (opaque, stringly-encoded) user
entries. -/
inductive JValue where
  | str (s : String)
  | bool (b : Bool)
  | arr (xs : List String)
deriving DecidableEq, Repr

/-- A response body: a finite string-keyed map, insertion ordered. -/
abbrev Content := List (String × JValue)

/-- Modelled from the spec: the result type of `User.deserialize` (missing
`types.py`) — either a deserialized user or a `SerializerError`. The
deserializer itself is a collaborator parameter. -/
abbrev UserDeserializer := String → Except Unit String

/-- `UserSearchResults(results, limited)` as returned by `search_users`. -/
structure UserSearchResults where
  results : List String
  limited : JValue
deriving DecidableEq, Repr

/-- Errors raised out of the user-data methods: a `MatrixResponseError` with
its message, or some other exception propagating uncaught (e.g. the
`TypeError` from iterating a non-list `results` value, or the bare `raise`
re-raising a `KeyError` when both keys are present). -/
inductive UserDataError where
  | matrix_response_error (message : String)
  | uncaught
deriving DecidableEq, Repr

/-- Deserialize every entry of the results array, stopping at the first
`SerializerError` (the list comprehension in `search_users`). -/
def deserializeAll (deser : UserDeserializer) : List String → Except Unit (List String)
  | [] => .ok []
  | x :: xs =>
      match deser x with
      | .error e => .error e
      | .ok u =>
          match deserializeAll deser xs with
          | .error e => .error e
          | .ok us => .ok (u :: us)

/-- `search_users` response handling (lines 42–56 of `user_data.py`):
evaluate `content["results"]` (a `KeyError` when absent is mapped, in the
handler, to a `MatrixResponseError` naming `results`), deserialize each
entry (a `SerializerError` becomes "Invalid user in search results"), then
evaluate `content["limited"]` (absence names `limited`); on success both
values are returned unchanged in a `UserSearchResults`. A `KeyError` when
both keys are present is re-raised as-is. -/
def search_users (deser : UserDeserializer) (content : Content) :
    Except UserDataError UserSearchResults :=
  match alGet content "results" with
  | none => .error (.matrix_response_error "`results` not in content.")
  | some rv =>
      match rv with
      | .arr entries =>
          match deserializeAll deser entries with
          | .error _ => .error (.matrix_response_error "Invalid user in search results")
          | .ok users =>
              match alGet content "limited" with
              | none => .error (.matrix_response_error "`limited` not in content.")
              | some lv => .ok { results := users, limited := lv }
      | _ => .error .uncaught

/-- `get_displayname` response handling (lines 87–91 of `user_data.py`):
return `content["displayname"]` unchanged, or raise a `MatrixResponseError`
naming the missing field. -/
def get_displayname (content : Content) : Except UserDataError JValue :=
  match alGet content "displayname" with
  | none => .error (.matrix_response_error "`displayname` not in response.")
  | some v => .ok v

/-! ### Association-list and nested-map lemmas -/

theorem alGet_alSet {κ α : Type} [DecidableEq κ] (m : List (κ × α)) (k k' : κ) (v : α) :
    alGet (alSet m k v) k' = if k' = k then some v else alGet m k' := by
  induction m with
  | nil => by_cases h : k' = k <;> simp [alSet, alGet, h]
  | cons hd tl ih =>
      obtain ⟨k1, v1⟩ := hd
      by_cases hk : k = k1
      · subst hk
        by_cases h : k' = k <;> simp [alSet, alGet, h]
      · by_cases h' : k' = k1
        · have hne : ¬k' = k := fun hh => hk (hh ▸ h')
          have hne' : ¬k1 = k := fun hh => hk hh.symm
          simp [alSet, alGet, hk, h', hne, hne']
        · by_cases h : k' = k
          · subst h
            simp [alSet, alGet, hk, h', ih]
          · simp [alSet, alGet, hk, h', h, ih]

theorem udMem_udSet {α : Type} (m : UserDeviceMap α) (u d u' d' : String) (v : α) :
    udMem (udSet m u d v) u' d' = true ↔
      (u' = u ∧ d' = d) ∨ udMem m u' d' = true := by
  by_cases hu : u' = u
  · subst hu
    by_cases hd' : d' = d
    · subst hd'
      simp [udMem, udSet, alGet_alSet]
    · simp only [udMem, udSet, alGet_alSet, if_pos rfl]
      cases hm : alGet m u' with
      | none => simp [hm, alGet, hd']
      | some inner => simp [hm, hd', alGet_alSet]
  · simp [udMem, udSet, alGet_alSet, hu]

theorem udMem_empty {α : Type} (u d : String) : udMem ([] : UserDeviceMap α) u d = false := by
  simp [udMem, alGet]

/-! ### Case lemmas for `_encrypt_group_session_for_device` -/

/-- Dedupe step 1: a pair already recorded in either set is returned as
`already_shared` with the session untouched. -/
theorem egsd_already_member (m : OlmMachine) (lookup : String → Option OlmChannel)
    (s : OutboundGroupSession) (u d : String) (dev : DeviceIdentity)
    (h : (u, d) ∈ s.users_ignored ∨ (u, d) ∈ s.users_shared_with) :
    encrypt_group_session_for_device m lookup s u d dev = (.already_shared, s) := by
  simp [encrypt_group_session_for_device, h]

/-- Step 2: the local account's own current device is added to
`users_ignored` and reported as `already_shared`. -/
theorem egsd_own_device (m : OlmMachine) (lookup : String → Option OlmChannel)
    (s : OutboundGroupSession) (u d : String) (dev : DeviceIdentity)
    (h1 : ¬((u, d) ∈ s.users_ignored ∨ (u, d) ∈ s.users_shared_with))
    (h2 : u = m.mxid ∧ d = m.device_id) :
    encrypt_group_session_for_device m lookup s u d dev =
      (.already_shared, { s with users_ignored := (u, d) :: s.users_ignored }) := by
  obtain ⟨hu, hd⟩ := h2
  subst hu
  subst hd
  simp [encrypt_group_session_for_device, h1]

/-- Step 3a: a blacklisted device is withheld with the fixed reason. -/
theorem egsd_blacklisted (m : OlmMachine) (lookup : String → Option OlmChannel)
    (s : OutboundGroupSession) (u d : String) (dev : DeviceIdentity)
    (h1 : ¬((u, d) ∈ s.users_ignored ∨ (u, d) ∈ s.users_shared_with))
    (h2 : ¬(u = m.mxid ∧ d = m.device_id))
    (h3 : dev.trust = TrustState.blacklisted) :
    encrypt_group_session_for_device m lookup s u d dev =
      (.withheld { room_id := s.room_id, algorithm := .megolm_v1, session_id := s.id,
                   sender_key := m.identity_key, code := .blacklisted,
                   reason := "Device is blacklisted" },
       { s with users_ignored := (u, d) :: s.users_ignored }) := by
  simp [encrypt_group_session_for_device, h1, h2, h3]

/-- Step 3b: an unverified (`UNSET`) device is withheld when policy forbids
unverified devices. -/
theorem egsd_unverified (m : OlmMachine) (lookup : String → Option OlmChannel)
    (s : OutboundGroupSession) (u d : String) (dev : DeviceIdentity)
    (h1 : ¬((u, d) ∈ s.users_ignored ∨ (u, d) ∈ s.users_shared_with))
    (h2 : ¬(u = m.mxid ∧ d = m.device_id))
    (h3 : m.allow_unverified_devices = false) (h4 : dev.trust = TrustState.unset) :
    encrypt_group_session_for_device m lookup s u d dev =
      (.withheld { room_id := s.room_id, algorithm := .megolm_v1, session_id := s.id,
                   sender_key := m.identity_key, code := .unverified,
                   reason := unverifiedReason },
       { s with users_ignored := (u, d) :: s.users_ignored }) := by
  have h3' : dev.trust ≠ TrustState.blacklisted := by rw [h4]; intro h; cases h
  simp [encrypt_group_session_for_device, h1, h2, h3, h3', h4]

/-- Step 4: trust passed but no pairwise channel exists — `key_missing`,
no mutation. -/
theorem egsd_channel_missing (m : OlmMachine) (lookup : String → Option OlmChannel)
    (s : OutboundGroupSession) (u d : String) (dev : DeviceIdentity)
    (h1 : ¬((u, d) ∈ s.users_ignored ∨ (u, d) ∈ s.users_shared_with))
    (h2 : ¬(u = m.mxid ∧ d = m.device_id))
    (h3 : dev.trust ≠ TrustState.blacklisted)
    (h4 : ¬(m.allow_unverified_devices = false ∧ dev.trust = TrustState.unset))
    (h5 : lookup dev.identity_key = none) :
    encrypt_group_session_for_device m lookup s u d dev = (.key_missing, s) := by
  simp [encrypt_group_session_for_device, h1, h2, h3, h4, h5]

/-- Step 5: trust passed and a channel exists — encrypt and record in
`users_shared_with`. -/
theorem egsd_encrypted (m : OlmMachine) (lookup : String → Option OlmChannel)
    (s : OutboundGroupSession) (u d : String) (dev : DeviceIdentity) (ch : OlmChannel)
    (h1 : ¬((u, d) ∈ s.users_ignored ∨ (u, d) ∈ s.users_shared_with))
    (h2 : ¬(u = m.mxid ∧ d = m.device_id))
    (h3 : dev.trust ≠ TrustState.blacklisted)
    (h4 : ¬(m.allow_unverified_devices = false ∧ dev.trust = TrustState.unset))
    (h5 : lookup dev.identity_key = some ch) :
    encrypt_group_session_for_device m lookup s u d dev =
      (.encrypted (encrypt_olm_event m ch s.share_content),
       { s with users_shared_with := (u, d) :: s.users_shared_with }) := by
  simp [encrypt_group_session_for_device, h1, h2, h3, h4, h5]

/-- Every call leaves the session unchanged, or conses the (fresh) pair onto
exactly one of the two sets. -/
theorem egsd_shape (m : OlmMachine) (lookup : String → Option OlmChannel)
    (s : OutboundGroupSession) (u d : String) (dev : DeviceIdentity) :
    (encrypt_group_session_for_device m lookup s u d dev).2 = s ∨
    ((encrypt_group_session_for_device m lookup s u d dev).2 =
        { s with users_ignored := (u, d) :: s.users_ignored } ∧
      (u, d) ∉ s.users_ignored ∧ (u, d) ∉ s.users_shared_with) ∨
    ((encrypt_group_session_for_device m lookup s u d dev).2 =
        { s with users_shared_with := (u, d) :: s.users_shared_with } ∧
      (u, d) ∉ s.users_ignored ∧ (u, d) ∉ s.users_shared_with) := by
  by_cases h1 : ((u, d) ∈ s.users_ignored ∨ (u, d) ∈ s.users_shared_with)
  · rw [egsd_already_member m lookup s u d dev h1]
    exact Or.inl rfl
  · push_neg at h1
    obtain ⟨h1a, h1b⟩ := h1
    have h1' : ¬((u, d) ∈ s.users_ignored ∨ (u, d) ∈ s.users_shared_with) := by
      simp [h1a, h1b]
    by_cases h2 : (u = m.mxid ∧ d = m.device_id)
    · rw [egsd_own_device m lookup s u d dev h1' h2]
      exact Or.inr (Or.inl ⟨rfl, h1a, h1b⟩)
    · by_cases h3 : dev.trust = TrustState.blacklisted
      · rw [egsd_blacklisted m lookup s u d dev h1' h2 h3]
        exact Or.inr (Or.inl ⟨rfl, h1a, h1b⟩)
      · by_cases h4 : (m.allow_unverified_devices = false ∧ dev.trust = TrustState.unset)
        · rw [egsd_unverified m lookup s u d dev h1' h2 h4.1 h4.2]
          exact Or.inr (Or.inl ⟨rfl, h1a, h1b⟩)
        · cases h5 : lookup dev.identity_key with
          | none =>
              rw [egsd_channel_missing m lookup s u d dev h1' h2 h3 h4 h5]
              exact Or.inl rfl
          | some ch =>
              rw [egsd_encrypted m lookup s u d dev ch h1' h2 h3 h4 h5]
              exact Or.inr (Or.inr ⟨rfl, h1a, h1b⟩)

/-- All session fields other than the two dedupe sets. -/
def same_frame (s' s : OutboundGroupSession) : Prop :=
  s'.room_id = s.room_id ∧ s'.id = s.id ∧ s'.session_key = s.session_key ∧
  s'.shared = s.shared ∧ s'.message_count = s.message_count ∧
  s'.creation_time = s.creation_time ∧ s'.max_messages = s.max_messages ∧
  s'.max_age = s.max_age

theorem same_frame_refl (s : OutboundGroupSession) : same_frame s s :=
  ⟨rfl, rfl, rfl, rfl, rfl, rfl, rfl, rfl⟩

theorem same_frame_trans {a b c : OutboundGroupSession}
    (h1 : same_frame a b) (h2 : same_frame b c) : same_frame a c := by
  obtain ⟨x1, x2, x3, x4, x5, x6, x7, x8⟩ := h1
  obtain ⟨y1, y2, y3, y4, y5, y6, y7, y8⟩ := h2
  exact ⟨x1.trans y1, x2.trans y2, x3.trans y3, x4.trans y4, x5.trans y5,
         x6.trans y6, x7.trans y7, x8.trans y8⟩

/-- A distribute call only ever touches the two dedupe sets. -/
theorem egsd_frame (m : OlmMachine) (lookup : String → Option OlmChannel)
    (s : OutboundGroupSession) (u d : String) (dev : DeviceIdentity) :
    same_frame (encrypt_group_session_for_device m lookup s u d dev).2 s := by
  rcases egsd_shape m lookup s u d dev with h | ⟨h, _, _⟩ | ⟨h, _, _⟩ <;> rw [h] <;>
    exact ⟨rfl, rfl, rfl, rfl, rfl, rfl, rfl, rfl⟩

/-- For the local account's own current device the outcome is always
`already_shared`. -/
theorem egsd_own_always_already (m : OlmMachine) (lookup : String → Option OlmChannel)
    (s : OutboundGroupSession) (dev : DeviceIdentity) :
    (encrypt_group_session_for_device m lookup s m.mxid m.device_id dev).1 =
      .already_shared := by
  by_cases h1 : ((m.mxid, m.device_id) ∈ s.users_ignored ∨
                 (m.mxid, m.device_id) ∈ s.users_shared_with)
  · rw [egsd_already_member m lookup s m.mxid m.device_id dev h1]
  · rw [egsd_own_device m lookup s m.mxid m.device_id dev h1 ⟨rfl, rfl⟩]

/-- A `key_missing` outcome leaves the session untouched. -/
theorem egsd_key_missing_frame (m : OlmMachine) (lookup : String → Option OlmChannel)
    (s : OutboundGroupSession) (u d : String) (dev : DeviceIdentity)
    (h : (encrypt_group_session_for_device m lookup s u d dev).1 = .key_missing) :
    (encrypt_group_session_for_device m lookup s u d dev).2 = s := by
  by_cases h1 : ((u, d) ∈ s.users_ignored ∨ (u, d) ∈ s.users_shared_with)
  · rw [egsd_already_member m lookup s u d dev h1]
  · by_cases h2 : (u = m.mxid ∧ d = m.device_id)
    · rw [egsd_own_device m lookup s u d dev h1 h2] at h
      cases h
    · by_cases h3 : dev.trust = TrustState.blacklisted
      · rw [egsd_blacklisted m lookup s u d dev h1 h2 h3] at h
        cases h
      · by_cases h4 : (m.allow_unverified_devices = false ∧ dev.trust = TrustState.unset)
        · rw [egsd_unverified m lookup s u d dev h1 h2 h4.1 h4.2] at h
          cases h
        · cases h5 : lookup dev.identity_key with
          | none => rw [egsd_channel_missing m lookup s u d dev h1 h2 h3 h4 h5]
          | some ch =>
              rw [egsd_encrypted m lookup s u d dev ch h1 h2 h3 h4 h5] at h
              cases h

/-- Repeating a distribute call for the same pair is idempotent on the
session. -/
theorem egsd_idempotent (m : OlmMachine) (lookup : String → Option OlmChannel)
    (s : OutboundGroupSession) (u d : String) (dev : DeviceIdentity) :
    (encrypt_group_session_for_device m lookup
        (encrypt_group_session_for_device m lookup s u d dev).2 u d dev).2 =
      (encrypt_group_session_for_device m lookup s u d dev).2 := by
  rcases egsd_shape m lookup s u d dev with h | ⟨h, _, _⟩ | ⟨h, _, _⟩
  · rw [h]
    exact h
  · rw [h, egsd_already_member m lookup _ u d dev (Or.inl (List.mem_cons_self _ _))]
  · rw [h, egsd_already_member m lookup _ u d dev (Or.inr (List.mem_cons_self _ _))]

/-- A result carrying content to deliver is never for the local account's
own device. -/
theorem egsd_content_not_own (m : OlmMachine) (lookup : String → Option OlmChannel)
    (s : OutboundGroupSession) (u d : String) (dev : DeviceIdentity)
    (h : (∃ c, (encrypt_group_session_for_device m lookup s u d dev).1 = .encrypted c) ∨
         (∃ c, (encrypt_group_session_for_device m lookup s u d dev).1 = .withheld c)) :
    ¬(u = m.mxid ∧ d = m.device_id) := by
  rintro ⟨hu, hd⟩
  subst hu
  subst hd
  rw [egsd_own_always_already m lookup s dev] at h
  rcases h with ⟨c, hc⟩ | ⟨c, hc⟩ <;> cases hc

/-- The invariant of the two dedupe sets: a pair belongs to at most one. -/
def sets_disjoint (s : OutboundGroupSession) : Prop :=
  ∀ k ∈ s.users_ignored, k ∉ s.users_shared_with

theorem egsd_preserves_disjoint (m : OlmMachine) (lookup : String → Option OlmChannel)
    (s : OutboundGroupSession) (u d : String) (dev : DeviceIdentity)
    (h : sets_disjoint s) :
    sets_disjoint (encrypt_group_session_for_device m lookup s u d dev).2 := by
  rcases egsd_shape m lookup s u d dev with hs | ⟨hs, hig, hsh⟩ | ⟨hs, hig, hsh⟩
  · rw [hs]
    exact h
  · rw [hs]
    intro k hk
    rcases List.mem_cons.mp hk with hk | hk
    · subst hk
      exact hsh
    · exact h k hk
  · rw [hs]
    intro k hk hmem
    rcases List.mem_cons.mp hmem with hm | hm
    · exact hig (hm ▸ hk)
    · exact h k hk hm

/-- Fold preservation of an invariant. -/
theorem foldl_preserve {α β : Type} (P : β → Prop) (f : β → α → β)
    (h : ∀ b a, P b → P (f b a)) : ∀ (l : List α) (b : β), P b → P (l.foldl f b) := by
  intro l
  induction l with
  | nil => intro b hb; exact hb
  | cons x xs ih => intro b hb; exact ih _ (h _ _ hb)

/-! ### Phase-level lemmas for `share_group_session` -/

/-- In every arm of `phase1_device`, the resulting session is the session
returned by the distribute call. -/
theorem phase1_device_session_eq (m : OlmMachine) (lookup : String → Option OlmChannel)
    (u : String) (acc : ShareAcc) (dd : String × DeviceIdentity) :
    (phase1_device m lookup u acc dd).session =
      (encrypt_group_session_for_device m lookup acc.session u dd.1 dd.2).2 := by
  unfold phase1_device
  cases h : (encrypt_group_session_for_device m lookup acc.session u dd.1 dd.2).1 <;>
    simp [h]

/-- In every arm of `phase2_device`, the resulting session is the session
returned by the distribute call. -/
theorem phase2_device_session_eq (m : OlmMachine) (lookup : String → Option OlmChannel)
    (u : String) (acc : ShareAcc) (dd : String × DeviceIdentity) :
    (phase2_device m lookup u acc dd).session =
      (encrypt_group_session_for_device m lookup acc.session u dd.1 dd.2).2 := by
  unfold phase2_device
  cases h : (encrypt_group_session_for_device m lookup acc.session u dd.1 dd.2).1 <;>
    simp [h]

/-- The second-pass accumulator of a `share_group_session` call. -/
def share_acc2 (env : ShareEnv) (users : List String) (s0 : OutboundGroupSession) :
    ShareAcc :=
  share_pass2 env (share_pass1 env users s0)
    (share_missing_pool env users (share_pass1 env users s0))

/-- Any session property preserved by every distribute call is preserved by
the whole two-pass fan-out. -/
theorem share_acc2_session_inv (env : ShareEnv) (users : List String)
    (s0 : OutboundGroupSession) (Q : OutboundGroupSession → Prop)
    (hQ : ∀ (lookup : String → Option OlmChannel) (s : OutboundGroupSession) (u d : String)
        (dev : DeviceIdentity), Q s → Q (encrypt_group_session_for_device
          env.machine lookup s u d dev).2)
    (h0 : Q s0) : Q (share_acc2 env users s0).session := by
  have hstep1 : ∀ (acc : ShareAcc) (u : String), Q acc.session →
      Q (phase1_user env acc u).session := by
    intro acc u h
    unfold phase1_user
    cases hd : env.get_devices u with
    | none => exact h
    | some devs =>
        cases devs with
        | nil => exact h
        | cons d0 ds =>
            refine foldl_preserve (fun (a : ShareAcc) => Q a.session) _ ?_ _ _ h
            intro b a hb
            rw [phase1_device_session_eq]
            exact hQ _ _ _ _ _ hb
  have hstep2 : ∀ (acc : ShareAcc) (ud : String × List (String × DeviceIdentity)),
      Q acc.session → Q (phase2_user env acc ud).session := by
    intro acc ud h
    unfold phase2_user
    refine foldl_preserve (fun (a : ShareAcc) => Q a.session) _ ?_ _ _ h
    intro b a hb
    rw [phase2_device_session_eq]
    exact hQ _ _ _ _ _ hb
  have h1 : Q (share_pass1 env users s0).session :=
    foldl_preserve (fun (a : ShareAcc) => Q a.session) _ hstep1 _ _ h0
  exact foldl_preserve (fun (a : ShareAcc) => Q a.session) _ hstep2 _ _ h1

/-- The fan-out only ever touches the session's dedupe sets. -/
theorem share_acc2_frame (env : ShareEnv) (users : List String)
    (s0 : OutboundGroupSession) : same_frame (share_acc2 env users s0).session s0 :=
  share_acc2_session_inv env users s0 (fun s => same_frame s s0)
    (fun lookup s u d dev h =>
      same_frame_trans (egsd_frame env.machine lookup s u d dev) h)
    (same_frame_refl s0)

/-- A successful `share_phases` means both dispatches succeeded; it returns
the fan-out's maps, marks the fan-out session shared, and persists exactly
that session under the room key. -/
theorem share_phases_ok_iff (env : ShareEnv) (st : CryptoStore) (room : String)
    (users : List String) (s0 : OutboundGroupSession) (st' : CryptoStore)
    (out : ShareOutput) (h : share_phases env st room users s0 = .ok st' out) :
    env.send_encrypted_ok = true ∧ env.send_withheld_ok = true ∧
    out.session = { (share_acc2 env users s0).session with shared := true } ∧
    out.share_key_msgs = (share_acc2 env users s0).share_key_msgs ∧
    out.withhold_key_msgs = (share_acc2 env users s0).withhold_key_msgs ∧
    out.fetch_arg = (if (share_pass1 env users s0).fetch_keys.isEmpty then none
                     else some users) ∧
    st' = { st with outbound := alSet st.outbound room ({ (share_acc2 env users s0).session with shared := true }) } := by
  unfold share_phases at h
  cases h1 : env.send_encrypted_ok <;> cases h2 : env.send_withheld_ok <;>
    rw [h1, h2] at h <;> simp at h
  obtain ⟨ho, hs⟩ := h
  subst ho
  subst hs
  refine ⟨rfl, rfl, rfl, rfl, rfl, ?_, rfl⟩
  cases hfk : (share_pass1 env users s0).fetch_keys <;> simp [hfk]

/-- A failing `share_phases` is always a dispatch failure: the store is the
input store, the carried session is the fan-out session (still unshared when
the input was), and at least one send flag is down. -/
theorem share_phases_err_iff (env : ShareEnv) (st : CryptoStore) (room : String)
    (users : List String) (s0 : OutboundGroupSession) (e : ShareError)
    (st' : CryptoStore) (so : Option OutboundGroupSession)
    (h : share_phases env st room users s0 = .err e st' so) :
    e = .send_failed ∧ st' = st ∧ so = some (share_acc2 env users s0).session ∧
    (env.send_encrypted_ok = false ∨ env.send_withheld_ok = false) := by
  unfold share_phases at h
  cases h1 : env.send_encrypted_ok <;> cases h2 : env.send_withheld_ok <;>
    rw [h1, h2] at h <;> simp at h
  · exact ⟨h.1.symm, h.2.1.symm, h.2.2.symm, Or.inl rfl⟩
  · exact ⟨h.1.symm, h.2.1.symm, h.2.2.symm, Or.inl rfl⟩
  · exact ⟨h.1.symm, h.2.1.symm, h.2.2.symm, Or.inr rfl⟩

/-- Creation happens exactly when there is no stored session or the stored
one is expired. -/
theorem resolve_session_create (env : ShareEnv) (st : CryptoStore) (room : String)
    (h : alGet st.outbound room = none ∨
         ∃ s, alGet st.outbound room = some s ∧ s.expired env.now = true) :
    resolve_session env st room = new_outbound_group_session env st room := by
  unfold resolve_session
  rcases h with h | ⟨s, hs, he⟩
  · rw [h]
  · rw [hs]
    simp [he]

theorem resolve_session_reuse (env : ShareEnv) (st : CryptoStore) (room : String)
    (s : OutboundGroupSession) (hs : alGet st.outbound room = some s)
    (he : s.expired env.now = false) :
    resolve_session env st room = (s, st) := by
  unfold resolve_session
  rw [hs]
  simp [he]

/-- Structure of a freshly created session and of the store after the
synchronous inbound mirror write. -/
theorem new_outbound_session_spec (env : ShareEnv) (st : CryptoStore) (room : String) :
    (new_outbound_group_session env st room).1 =
      { room_id := room, id := env.fresh_id, session_key := env.fresh_key,
        shared := false, message_count := 0, creation_time := env.now,
        max_messages := env.default_max_messages, max_age := env.default_max_age,
        users_ignored := [], users_shared_with := [] } ∧
    (new_outbound_group_session env st room).2 =
      { st with inbound := alSet st.inbound (room, env.machine.identity_key, env.fresh_id) ({ session_key := env.fresh_key, signing_key := env.machine.signing_key, sender_key := env.machine.identity_key, room_id := room }) } :=
  ⟨rfl, rfl⟩

/-- The resolved session is the fresh session or a stored, unexpired one. -/
theorem resolve_session_fresh_or_stored (env : ShareEnv) (st : CryptoStore) (room : String) :
    resolve_session env st room = new_outbound_group_session env st room ∨
    ∃ s, alGet st.outbound room = some s ∧ s.expired env.now = false ∧
      resolve_session env st room = (s, st) := by
  unfold resolve_session
  cases hs : alGet st.outbound room with
  | none => exact Or.inl rfl
  | some s =>
      dsimp only
      by_cases he : s.expired env.now = true
      · rw [if_pos he]
        exact Or.inl rfl
      · rw [if_neg he]
        exact Or.inr ⟨s, rfl, Bool.eq_false_iff.mpr he, rfl⟩

/-- When the guard has passed, the session entering the fan-out is unshared. -/
theorem resolve_session_unshared (env : ShareEnv) (st : CryptoStore) (room : String)
    (hg : share_guard env.now (alGet st.outbound room) = false) :
    (resolve_session env st room).1.shared = false := by
  rcases resolve_session_fresh_or_stored env st room with h | ⟨s, hs, he, h⟩
  · rw [h]
    rfl
  · rw [h]
    unfold share_guard at hg
    rw [hs] at hg
    simpa [he] using hg

/-- Session resolution never touches the outbound-session store (a creation
writes only the mirrored inbound session). -/
theorem resolve_session_outbound (env : ShareEnv) (st : CryptoStore) (room : String) :
    (resolve_session env st room).2.outbound = st.outbound := by
  rcases resolve_session_fresh_or_stored env st room with h | ⟨s, _, _, h⟩ <;> rw [h] <;> rfl

/-- When the guard fires, the call fails immediately with the store and the
stored session untouched. -/
theorem share_group_session_guard_eq (env : ShareEnv) (st : CryptoStore) (room : String)
    (users : List String) (h : share_guard env.now (alGet st.outbound room) = true) :
    share_group_session env st room users =
      .err .already_shared_error st (alGet st.outbound room) := by
  unfold share_group_session
  simp [h]

theorem udMem_udSet_false {α : Type} (m : UserDeviceMap α) (u d u' d' : String) (v : α)
    (hne : ¬(u' = u ∧ d' = d)) (h : udMem m u' d' = false) :
    udMem (udSet m u d v) u' d' = false := by
  rw [Bool.eq_false_iff]
  intro htrue
  rcases (udMem_udSet m u d u' d' v).mp htrue with hc | hc
  · exact hne hc
  · rw [h] at hc
    cases hc

/-- The local account's own current device does not key either accumulator
map. -/
def own_absent (m : OlmMachine) (acc : ShareAcc) : Prop :=
  udMem acc.share_key_msgs m.mxid m.device_id = false ∧
  udMem acc.withhold_key_msgs m.mxid m.device_id = false

theorem phase1_device_own_absent (m : OlmMachine) (lookup : String → Option OlmChannel)
    (u : String) (acc : ShareAcc) (dd : String × DeviceIdentity)
    (h : own_absent m acc) : own_absent m (phase1_device m lookup u acc dd) := by
  cases hr : (encrypt_group_session_for_device m lookup acc.session u dd.1 dd.2).1 with
  | already_shared => simpa [phase1_device, hr] using h
  | key_missing => simpa [phase1_device, hr] using h
  | encrypted c =>
      have hno : ¬(u = m.mxid ∧ dd.1 = m.device_id) :=
        egsd_content_not_own m lookup acc.session u dd.1 dd.2 (Or.inl ⟨c, hr⟩)
      have hne : ¬(m.mxid = u ∧ m.device_id = dd.1) := fun hh => hno ⟨hh.1.symm, hh.2.symm⟩
      refine ⟨?_, ?_⟩ <;> simp only [phase1_device, hr]
      · exact udMem_udSet_false _ _ _ _ _ _ hne h.1
      · exact h.2
  | withheld c =>
      have hno : ¬(u = m.mxid ∧ dd.1 = m.device_id) :=
        egsd_content_not_own m lookup acc.session u dd.1 dd.2 (Or.inr ⟨c, hr⟩)
      have hne : ¬(m.mxid = u ∧ m.device_id = dd.1) := fun hh => hno ⟨hh.1.symm, hh.2.symm⟩
      refine ⟨?_, ?_⟩ <;> simp only [phase1_device, hr]
      · exact h.1
      · exact udMem_udSet_false _ _ _ _ _ _ hne h.2

theorem phase2_device_own_absent (m : OlmMachine) (lookup : String → Option OlmChannel)
    (u : String) (acc : ShareAcc) (dd : String × DeviceIdentity)
    (h : own_absent m acc) : own_absent m (phase2_device m lookup u acc dd) := by
  cases hr : (encrypt_group_session_for_device m lookup acc.session u dd.1 dd.2).1 with
  | already_shared => simpa [phase2_device, hr] using h
  | key_missing => simpa [phase2_device, hr] using h
  | encrypted c =>
      have hno : ¬(u = m.mxid ∧ dd.1 = m.device_id) :=
        egsd_content_not_own m lookup acc.session u dd.1 dd.2 (Or.inl ⟨c, hr⟩)
      have hne : ¬(m.mxid = u ∧ m.device_id = dd.1) := fun hh => hno ⟨hh.1.symm, hh.2.symm⟩
      refine ⟨?_, ?_⟩ <;> simp only [phase2_device, hr]
      · exact udMem_udSet_false _ _ _ _ _ _ hne h.1
      · exact h.2
  | withheld c =>
      have hno : ¬(u = m.mxid ∧ dd.1 = m.device_id) :=
        egsd_content_not_own m lookup acc.session u dd.1 dd.2 (Or.inr ⟨c, hr⟩)
      have hne : ¬(m.mxid = u ∧ m.device_id = dd.1) := fun hh => hno ⟨hh.1.symm, hh.2.symm⟩
      refine ⟨?_, ?_⟩ <;> simp only [phase2_device, hr]
      · exact h.1
      · exact udMem_udSet_false _ _ _ _ _ _ hne h.2

/-- Neither fan-out pass ever files anything under the local account's own
device. -/
theorem share_acc2_own_absent (env : ShareEnv) (users : List String)
    (s0 : OutboundGroupSession) : own_absent env.machine (share_acc2 env users s0) := by
  have hstep1 : ∀ (acc : ShareAcc) (u : String), own_absent env.machine acc →
      own_absent env.machine (phase1_user env acc u) := by
    intro acc u h
    unfold phase1_user
    cases hd : env.get_devices u with
    | none => exact h
    | some devs =>
        cases devs with
        | nil => exact h
        | cons d0 ds =>
            exact foldl_preserve (own_absent env.machine) _
              (fun b a hb => phase1_device_own_absent env.machine env.channels u b a hb)
              _ _ h
  have hstep2 : ∀ (acc : ShareAcc) (ud : String × List (String × DeviceIdentity)),
      own_absent env.machine acc → own_absent env.machine (phase2_user env acc ud) := by
    intro acc ud h
    unfold phase2_user
    exact foldl_preserve (own_absent env.machine) _
      (fun b a hb => phase2_device_own_absent env.machine env.channels_after ud.1 b a hb)
      _ _ h
  have h0 : own_absent env.machine
      { session := s0, share_key_msgs := [], withhold_key_msgs := [],
        missing_sessions := [], fetch_keys := [] } :=
    ⟨udMem_empty _ _, udMem_empty _ _⟩
  have h1 : own_absent env.machine (share_pass1 env users s0) :=
    foldl_preserve (own_absent env.machine) _ hstep1 _ _ h0
  exact foldl_preserve (own_absent env.machine) _ hstep2 _ _ h1

/-- When the guard passes, the call is session resolution followed by policy
application and the fan-out phases. -/
theorem share_group_session_body_eq (env : ShareEnv) (st : CryptoStore) (room : String)
    (users : List String) (h : share_guard env.now (alGet st.outbound room) = false) :
    share_group_session env st room users =
      (match env.get_encryption_info room with
       | some info =>
           if info.algorithm ≠ EncryptionAlgorithm.megolm_v1 then
             .err .unsupported_algorithm (resolve_session env st room).2
               (some (resolve_session env st room).1)
           else
             share_phases env (resolve_session env st room).2 room users
               (apply_encryption_info info (resolve_session env st room).1)
       | none =>
           share_phases env (resolve_session env st room).2 room users
             (resolve_session env st room).1) := by
  unfold share_group_session
  simp [h]

/-- Characterization of a successful `share_group_session`: the guard passed,
the policy (if any) named the supported algorithm, and the fan-out phases ran
to a successful dispatch on the resolved (policy-adjusted) session. -/
theorem share_ok_spec (env : ShareEnv) (st : CryptoStore) (room : String)
    (users : List String) (st' : CryptoStore) (out : ShareOutput)
    (h : share_group_session env st room users = .ok st' out) :
    share_guard env.now (alGet st.outbound room) = false ∧
    ∃ s0, ((env.get_encryption_info room = none ∧ s0 = (resolve_session env st room).1) ∨
           (∃ info, env.get_encryption_info room = some info ∧
              info.algorithm = EncryptionAlgorithm.megolm_v1 ∧
              s0 = apply_encryption_info info (resolve_session env st room).1)) ∧
      share_phases env (resolve_session env st room).2 room users s0 = .ok st' out := by
  by_cases hg : share_guard env.now (alGet st.outbound room) = true
  · rw [share_group_session_guard_eq env st room users hg] at h
    cases h
  · have hg' : share_guard env.now (alGet st.outbound room) = false := by
      cases hgv : share_guard env.now (alGet st.outbound room)
      · rfl
      · exact absurd hgv hg
    rw [share_group_session_body_eq env st room users hg'] at h
    refine ⟨hg', ?_⟩
    cases hinfo : env.get_encryption_info room with
    | none =>
        simp only [hinfo] at h
        exact ⟨(resolve_session env st room).1, Or.inl ⟨rfl, rfl⟩, h⟩
    | some info =>
        simp only [hinfo] at h
        by_cases halg : info.algorithm = EncryptionAlgorithm.megolm_v1
        · rw [if_neg (not_not_intro halg)] at h
          exact ⟨apply_encryption_info info (resolve_session env st room).1,
                 Or.inr ⟨info, rfl, halg, rfl⟩, h⟩
        · rw [if_pos halg] at h
          cases h

/-- Characterization of a failing `share_group_session`. -/
theorem share_err_spec (env : ShareEnv) (st : CryptoStore) (room : String)
    (users : List String) (e : ShareError) (st' : CryptoStore)
    (so : Option OutboundGroupSession)
    (h : share_group_session env st room users = .err e st' so) :
    (e = .already_shared_error ∧ st' = st ∧ so = alGet st.outbound room ∧
      share_guard env.now (alGet st.outbound room) = true) ∨
    (share_guard env.now (alGet st.outbound room) = false ∧ st' = (resolve_session env st room).2 ∧
      ((e = .unsupported_algorithm ∧ so = some (resolve_session env st room).1 ∧
         ∃ info, env.get_encryption_info room = some info ∧
           info.algorithm ≠ EncryptionAlgorithm.megolm_v1) ∨
       (e = .send_failed ∧
         (env.send_encrypted_ok = false ∨ env.send_withheld_ok = false) ∧
         ∃ s0, ((env.get_encryption_info room = none ∧ s0 = (resolve_session env st room).1) ∨
             (∃ info, env.get_encryption_info room = some info ∧
                info.algorithm = EncryptionAlgorithm.megolm_v1 ∧
                s0 = apply_encryption_info info (resolve_session env st room).1)) ∧
           so = some (share_acc2 env users s0).session))) := by
  by_cases hg : share_guard env.now (alGet st.outbound room) = true
  · rw [share_group_session_guard_eq env st room users hg] at h
    cases h
    exact Or.inl ⟨rfl, rfl, rfl, hg⟩
  · have hg' : share_guard env.now (alGet st.outbound room) = false := by
      cases hgv : share_guard env.now (alGet st.outbound room)
      · rfl
      · exact absurd hgv hg
    rw [share_group_session_body_eq env st room users hg'] at h
    refine Or.inr ⟨hg', ?_⟩
    cases hinfo : env.get_encryption_info room with
    | none =>
        simp only [hinfo] at h
        obtain ⟨he, hst, hso, hsend⟩ :=
          share_phases_err_iff env (resolve_session env st room).2 room users _ e st' so h
        exact ⟨hst, Or.inr ⟨he, hsend, (resolve_session env st room).1,
          Or.inl ⟨rfl, rfl⟩, hso⟩⟩
    | some info =>
        simp only [hinfo] at h
        by_cases halg : info.algorithm = EncryptionAlgorithm.megolm_v1
        · rw [if_neg (not_not_intro halg)] at h
          obtain ⟨he, hst, hso, hsend⟩ :=
            share_phases_err_iff env (resolve_session env st room).2 room users _ e st' so h
          exact ⟨hst, Or.inr ⟨he, hsend,
            apply_encryption_info info (resolve_session env st room).1,
            Or.inr ⟨info, rfl, halg, rfl⟩, hso⟩⟩
        · rw [if_pos halg] at h
          cases h
          exact ⟨rfl, Or.inl ⟨rfl, rfl, info, rfl, halg⟩⟩


/-! ### Concrete fixtures for counterexamples and witnesses -/

/-- Concrete local account: user `@me` on device `SELF`, allowing unverified
devices. -/
def cMachine : OlmMachine :=
  { mxid := "@me", device_id := "SELF", identity_key := "me-ik",
    signing_key := "me-sk", allow_unverified_devices := true }

/-- Concrete blacklisted peer device `(@u, D1)`. -/
def cBlacklistedDev : DeviceIdentity :=
  { user_id := "@u", device_id := "D1", identity_key := "u-ik",
    signing_key := "u-sk", trust := .blacklisted }

/-- Concrete unset-trust peer device `(@u, D2)`. -/
def cUnsetDev : DeviceIdentity :=
  { user_id := "@u", device_id := "D2", identity_key := "u-ik2",
    signing_key := "u-sk2", trust := .unset }

/-- Session that already recorded `(@u, D1)` in `users_ignored`. -/
def cSessionIgnored : OutboundGroupSession :=
  { room_id := "!room", id := "SID", session_key := "SKEY", shared := false,
    message_count := 0, creation_time := 0, max_messages := 100,
    max_age := 604800000, users_ignored := [("@u", "D1")], users_shared_with := [] }

/-- Fresh session with empty dedupe sets. -/
def cSessionFresh : OutboundGroupSession :=
  { cSessionIgnored with users_ignored := [] }

/-- Verified device `d1` of user `@a`. -/
def cDevA1 : DeviceIdentity :=
  { user_id := "@a", device_id := "d1", identity_key := "ikA1",
    signing_key := "skA1", trust := .verified }

/-- Blacklisted device `d2` of user `@a`. -/
def cDevA2 : DeviceIdentity :=
  { user_id := "@a", device_id := "d2", identity_key := "ikA2",
    signing_key := "skA2", trust := .blacklisted }

/-- Verified device `e1` of user `@b`. -/
def cDevB1 : DeviceIdentity :=
  { user_id := "@b", device_id := "e1", identity_key := "ikB1",
    signing_key := "skB1", trust := .verified }

/-- Concrete collaborator environment: `@a` is known to storage with devices
`d1` (verified, channel 7 available) and `d2` (blacklisted); `@b` was never
fetched; the directory returns `e1` for `@b` (and nothing for `@a`); after
bulk channel establishment device `e1` has channel 9; both dispatches
succeed. -/
def cEnv : ShareEnv :=
  { machine := cMachine, now := 1000, fresh_id := "SESS", fresh_key := "KEY",
    default_max_messages := 100, default_max_age := 604800000,
    get_devices := fun u => if u = "@a" then some [("d1", cDevA1), ("d2", cDevA2)] else none,
    get_encryption_info := fun _ => none,
    fetch_keys_fn := fun us _ =>
      us.map (fun u => if u = "@b" then (u, [("e1", cDevB1)]) else (u, [])),
    channels := fun ik => if ik = "ikA1" then some 7 else none,
    channels_after := fun ik => if ik = "ikB1" then some 9 else none,
    send_encrypted_ok := true, send_withheld_ok := true }

/-- The empty store. -/
def cStore : CryptoStore := { outbound := [], inbound := [] }

/-- The concrete outcome of sharing `!room` with `[@a, @b]` from the empty
store. -/
def cOutcome : ShareOutcome := share_group_session cEnv cStore "!room" ["@a", "@b"]

/-- Fallback output used by the projection below (never hit on `cOutcome`). -/
def dummyOutput : ShareOutput :=
  { share_key_msgs := [], withhold_key_msgs := [], fetch_arg := none,
    session := cSessionFresh }

/-- The success output of `cOutcome`. -/
def cOutput : ShareOutput :=
  match cOutcome with
  | .ok _ o => o
  | .err _ _ _ => dummyOutput

/-- The store carried by `cOutcome`. -/
def cOutStore : CryptoStore := cOutcome.store

/-! ### Claim theorems -/

/-- C1 counterexample: the claim quantifies over every device, but a
blacklisted device whose (user, device) pair is already recorded in
`users_ignored` yields `already_shared`, not `Withheld(BLACKLISTED, …)`; so
does a blacklisted identity at the local account's own current device even
on a fresh session. -/
theorem c1_blacklisted_not_always_withheld :
    (cBlacklistedDev.trust = TrustState.blacklisted ∧
     (encrypt_group_session_for_device cMachine (fun _ => none) cSessionIgnored
         "@u" "D1" cBlacklistedDev).1 = .already_shared ∧
     ∀ c, (encrypt_group_session_for_device cMachine (fun _ => none) cSessionIgnored
         "@u" "D1" cBlacklistedDev).1 ≠ .withheld c) ∧
    ((encrypt_group_session_for_device cMachine (fun _ => none) cSessionFresh
         "@me" "SELF" cBlacklistedDev).1 = .already_shared ∧
     ∀ c, (encrypt_group_session_for_device cMachine (fun _ => none) cSessionFresh
         "@me" "SELF" cBlacklistedDev).1 ≠ .withheld c) := by
  have h : (encrypt_group_session_for_device cMachine (fun _ => none) cSessionIgnored
      "@u" "D1" cBlacklistedDev).1 = .already_shared := by decide
  have h2 : (encrypt_group_session_for_device cMachine (fun _ => none) cSessionFresh
      "@me" "SELF" cBlacklistedDev).1 = .already_shared := by decide
  refine ⟨⟨rfl, h, fun c hc => ?_⟩, ⟨h2, fun c hc => ?_⟩⟩
  · rw [h] at hc
    cases hc
  · rw [h2] at hc
    cases hc

/-- C1 (amended): for a device whose pair is not already recorded in either
dedupe set and which is not the local account's own current device, the
trust checks apply in fixed priority — `BLACKLISTED` yields
`Withheld(BLACKLISTED, "Device is blacklisted")`; `UNSET` with
`allowUnverified = false` yields `Withheld(UNVERIFIED, …)`; `UNSET` with
`allowUnverified = true` and an existing pairwise channel yields
`Encrypted(payload)`. -/
theorem c1_trust_checks_priority (m : OlmMachine) (lookup : String → Option OlmChannel)
    (s : OutboundGroupSession) (u d : String) (dev : DeviceIdentity)
    (h1 : (u, d) ∉ s.users_ignored) (h2 : (u, d) ∉ s.users_shared_with)
    (h3 : ¬(u = m.mxid ∧ d = m.device_id)) :
    (dev.trust = TrustState.blacklisted →
      (encrypt_group_session_for_device m lookup s u d dev).1 =
        .withheld { room_id := s.room_id, algorithm := .megolm_v1, session_id := s.id,
                    sender_key := m.identity_key, code := .blacklisted,
                    reason := "Device is blacklisted" }) ∧
    (dev.trust = TrustState.unset → m.allow_unverified_devices = false →
      (encrypt_group_session_for_device m lookup s u d dev).1 =
        .withheld { room_id := s.room_id, algorithm := .megolm_v1, session_id := s.id,
                    sender_key := m.identity_key, code := .unverified,
                    reason := unverifiedReason }) ∧
    (dev.trust = TrustState.unset → m.allow_unverified_devices = true →
      ∀ ch, lookup dev.identity_key = some ch →
        (encrypt_group_session_for_device m lookup s u d dev).1 =
          .encrypted (encrypt_olm_event m ch s.share_content)) := by
  have hmem : ¬((u, d) ∈ s.users_ignored ∨ (u, d) ∈ s.users_shared_with) := by
    simp [h1, h2]
  refine ⟨?_, ?_, ?_⟩
  · intro ht
    rw [egsd_blacklisted m lookup s u d dev hmem h3 ht]
  · intro ht ha
    rw [egsd_unverified m lookup s u d dev hmem h3 ha ht]
  · intro ht ha ch hch
    have h3' : dev.trust ≠ TrustState.blacklisted := by
      rw [ht]
      intro hx
      cases hx
    have h4 : ¬(m.allow_unverified_devices = false ∧ dev.trust = TrustState.unset) := by
      simp [ha]
    rw [egsd_encrypted m lookup s u d dev ch hmem h3 h3' h4 hch]

/-- C1 witness: the amended theorem applied to the concrete blacklisted
device on a fresh session. -/
theorem c1_trust_checks_priority_witness :
    (encrypt_group_session_for_device cMachine (fun _ => none) cSessionFresh
        "@u" "D1" cBlacklistedDev).1 =
      .withheld { room_id := "!room", algorithm := .megolm_v1, session_id := "SID",
                  sender_key := "me-ik", code := .blacklisted,
                  reason := "Device is blacklisted" } :=
  (c1_trust_checks_priority cMachine (fun _ => none) cSessionFresh "@u" "D1"
      cBlacklistedDev (by decide) (by decide) (by decide)).1 rfl

/-- C3: a (user, device) pair belongs to at most one of `users_ignored` and
`users_shared_with`: every distribute call preserves the disjointness
invariant, and a successful `share_group_session` both returns and persists
a session satisfying it (given the stored sessions satisfied it). -/
theorem c3_sets_disjoint_invariant :
    (∀ (m : OlmMachine) (lookup : String → Option OlmChannel) (s : OutboundGroupSession)
        (u d : String) (dev : DeviceIdentity), sets_disjoint s →
        sets_disjoint (encrypt_group_session_for_device m lookup s u d dev).2) ∧
    (∀ (env : ShareEnv) (st : CryptoStore) (room : String) (users : List String)
        (st' : CryptoStore) (out : ShareOutput),
        (∀ s, alGet st.outbound room = some s → sets_disjoint s) →
        share_group_session env st room users = .ok st' out →
        sets_disjoint out.session ∧
        ∀ s, alGet st'.outbound room = some s → sets_disjoint s) := by
  constructor
  · exact fun m lookup s u d dev h => egsd_preserves_disjoint m lookup s u d dev h
  · intro env st room users st' out hst hok
    obtain ⟨hg, s0, hs0, hph⟩ := share_ok_spec env st room users st' out hok
    obtain ⟨_, _, hsession, _, _, _, hst'⟩ :=
      share_phases_ok_iff env _ room users s0 st' out hph
    have hres : sets_disjoint (resolve_session env st room).1 := by
      rcases resolve_session_fresh_or_stored env st room with h | ⟨s, hsx, _, h⟩
      · rw [h]
        intro k hk
        cases hk
      · rw [h]
        exact hst s hsx
    have hs0d : sets_disjoint s0 := by
      rcases hs0 with ⟨_, rfl⟩ | ⟨info, _, _, rfl⟩
      · exact hres
      · exact hres
    have hacc : sets_disjoint (share_acc2 env users s0).session :=
      share_acc2_session_inv env users s0 sets_disjoint
        (fun lookup s u d dev h => egsd_preserves_disjoint env.machine lookup s u d dev h)
        hs0d
    constructor
    · rw [hsession]
      exact hacc
    · intro s hs
      rw [hst'] at hs
      simp only [alGet_alSet] at hs
      simp at hs
      subst hs
      exact hacc

/-- C3 witness: the share-level conjunct applied to the concrete scenario. -/
theorem c3_sets_disjoint_invariant_witness :
    sets_disjoint cOutput.session := by
  have h : share_group_session cEnv cStore "!room" ["@a", "@b"] = .ok cOutStore cOutput :=
    rfl
  exact (c3_sets_disjoint_invariant.2 cEnv cStore "!room" ["@a", "@b"] cOutStore cOutput
    (fun s hs => by cases hs) h).1

/-- C4: each distribute call mutates at most one of the two sets, adding at
most the call's own pair and touching nothing else; a call that returns
`already_shared` because the pair is already recorded, and a `key_missing`
call, leave the session unchanged; repeating the call is idempotent on the
session. -/
theorem c4_distribute_mutation_frame (m : OlmMachine)
    (lookup : String → Option OlmChannel) (s : OutboundGroupSession)
    (u d : String) (dev : DeviceIdentity) :
    ((encrypt_group_session_for_device m lookup s u d dev).2 = s ∨
     (encrypt_group_session_for_device m lookup s u d dev).2 =
       { s with users_ignored := (u, d) :: s.users_ignored } ∨
     (encrypt_group_session_for_device m lookup s u d dev).2 =
       { s with users_shared_with := (u, d) :: s.users_shared_with }) ∧
    ((u, d) ∈ s.users_ignored ∨ (u, d) ∈ s.users_shared_with →
      encrypt_group_session_for_device m lookup s u d dev = (.already_shared, s)) ∧
    ((encrypt_group_session_for_device m lookup s u d dev).1 = .key_missing →
      (encrypt_group_session_for_device m lookup s u d dev).2 = s) ∧
    (encrypt_group_session_for_device m lookup
        (encrypt_group_session_for_device m lookup s u d dev).2 u d dev).2 =
      (encrypt_group_session_for_device m lookup s u d dev).2 := by
  refine ⟨?_, egsd_already_member m lookup s u d dev,
          egsd_key_missing_frame m lookup s u d dev,
          egsd_idempotent m lookup s u d dev⟩
  rcases egsd_shape m lookup s u d dev with h | ⟨h, _, _⟩ | ⟨h, _, _⟩
  · exact Or.inl h
  · exact Or.inr (Or.inl h)
  · exact Or.inr (Or.inr h)

/-- C4 witness: the dedupe branch applied to the concrete session that
already recorded the pair. -/
theorem c4_distribute_mutation_frame_witness :
    encrypt_group_session_for_device cMachine (fun _ => none) cSessionIgnored
        "@u" "D1" cBlacklistedDev = (.already_shared, cSessionIgnored) :=
  (c4_distribute_mutation_frame cMachine (fun _ => none) cSessionIgnored "@u" "D1"
      cBlacklistedDev).2.1 (Or.inl (by decide))

/-- C5: distributing to the local account's own current device records the
pair in `users_ignored` and reports `already_shared`; consequently the own
device never keys the encrypted-delivery map or the withheld map of a
successful `share_group_session`. -/
theorem c5_own_device_excluded :
    (∀ (m : OlmMachine) (lookup : String → Option OlmChannel)
        (s : OutboundGroupSession) (dev : DeviceIdentity),
        (m.mxid, m.device_id) ∉ s.users_ignored →
        (m.mxid, m.device_id) ∉ s.users_shared_with →
        encrypt_group_session_for_device m lookup s m.mxid m.device_id dev =
          (.already_shared,
           { s with users_ignored := (m.mxid, m.device_id) :: s.users_ignored })) ∧
    (∀ (env : ShareEnv) (st : CryptoStore) (room : String) (users : List String)
        (st' : CryptoStore) (out : ShareOutput),
        share_group_session env st room users = .ok st' out →
        udMem out.share_key_msgs env.machine.mxid env.machine.device_id = false ∧
        udMem out.withhold_key_msgs env.machine.mxid env.machine.device_id = false) := by
  constructor
  · intro m lookup s dev h1 h2
    exact egsd_own_device m lookup s m.mxid m.device_id dev (by simp [h1, h2]) ⟨rfl, rfl⟩
  · intro env st room users st' out hok
    obtain ⟨hg, s0, hs0, hph⟩ := share_ok_spec env st room users st' out hok
    obtain ⟨_, _, _, hshare, hwith, _, _⟩ :=
      share_phases_ok_iff env _ room users s0 st' out hph
    have habs := share_acc2_own_absent env users s0
    constructor
    · rw [hshare]
      exact habs.1
    · rw [hwith]
      exact habs.2

/-- C5 witness: in the concrete scenario the own device `(@me, SELF)` keys
neither output map. -/
theorem c5_own_device_excluded_witness :
    udMem cOutput.share_key_msgs "@me" "SELF" = false ∧
    udMem cOutput.withhold_key_msgs "@me" "SELF" = false := by
  have h : share_group_session cEnv cStore "!room" ["@a", "@b"] = .ok cOutStore cOutput :=
    rfl
  exact c5_own_device_excluded.2 cEnv cStore "!room" ["@a", "@b"] cOutStore cOutput h

/-- Unfolding of the already-shared guard. -/
theorem share_guard_iff (now : Nat) (sOpt : Option OutboundGroupSession) :
    share_guard now sOpt = true ↔
      ∃ s, sOpt = some s ∧ s.shared = true ∧ s.expired now = false := by
  cases sOpt with
  | none => simp [share_guard]
  | some s => simp [share_guard]

/-- The fan-out phases never touch the inbound-session store. -/
theorem share_phases_store_inbound (env : ShareEnv) (st : CryptoStore) (room : String)
    (users : List String) (s0 : OutboundGroupSession) :
    (share_phases env st room users s0).store.inbound = st.inbound := by
  unfold share_phases
  cases h1 : env.send_encrypted_ok <;> cases h2 : env.send_withheld_ok <;>
    simp [ShareOutcome.store, h1, h2]

/-- The store carried by any `share_group_session` outcome has the inbound
sessions of the resolution step (the guard error keeps the input store). -/
theorem share_store_inbound (env : ShareEnv) (st : CryptoStore) (room : String)
    (users : List String) (hg : share_guard env.now (alGet st.outbound room) = false) :
    (share_group_session env st room users).store.inbound =
      (resolve_session env st room).2.inbound := by
  rw [share_group_session_body_eq env st room users hg]
  cases hinfo : env.get_encryption_info room with
  | none => exact share_phases_store_inbound env _ room users _
  | some info =>
      dsimp only
      by_cases halg : info.algorithm = EncryptionAlgorithm.megolm_v1
      · rw [if_neg (not_not_intro halg)]
        exact share_phases_store_inbound env _ room users _
      · rw [if_pos halg]
        rfl

/-- C6: `share_group_session` fails with `AlreadySharedError` exactly when an
outbound session exists for the room, is marked shared, and is not expired;
the failing call changes no state; and a second call right after a
successful one on a still-unexpired session fails that way. -/
theorem c6_already_shared_guard :
    (∀ (env : ShareEnv) (st : CryptoStore) (room : String) (users : List String),
       (share_group_session env st room users =
          .err .already_shared_error st (alGet st.outbound room) ↔
        ∃ s, alGet st.outbound room = some s ∧ s.shared = true ∧
          s.expired env.now = false)) ∧
    (∀ (env : ShareEnv) (st : CryptoStore) (room : String) (users : List String)
        (st' : CryptoStore) (out : ShareOutput),
       share_group_session env st room users = .ok st' out →
       out.session.expired env.now = false →
       share_group_session env st' room users =
         .err .already_shared_error st' (some out.session)) := by
  constructor
  · intro env st room users
    constructor
    · intro h
      obtain he | ⟨hg, _, hrest⟩ := share_err_spec env st room users _ st _ h
      · exact (share_guard_iff env.now (alGet st.outbound room)).mp he.2.2.2
      · rcases hrest with ⟨he, _⟩ | ⟨he, _⟩ <;> cases he
    · intro h
      have hg : share_guard env.now (alGet st.outbound room) = true :=
        (share_guard_iff env.now (alGet st.outbound room)).mpr h
      exact share_group_session_guard_eq env st room users hg
  · intro env st room users st' out hok hexp
    obtain ⟨hg, s0, hs0, hph⟩ := share_ok_spec env st room users st' out hok
    obtain ⟨_, _, hsession, _, _, _, hst'⟩ :=
      share_phases_ok_iff env _ room users s0 st' out hph
    have hget : alGet st'.outbound room = some out.session := by
      rw [hst', hsession]
      simp [alGet_alSet]
    have hshared : out.session.shared = true := by
      rw [hsession]
    have hg' : share_guard env.now (alGet st'.outbound room) = true := by
      rw [hget]
      simp [share_guard, hshared, hexp]
    have := share_group_session_guard_eq env st' room users hg'
    rw [hget] at this
    exact this

/-- C6 witness: sharing twice in succession from the empty store — the
second call fails with the already-shared error and leaves the store as the
first call left it. -/
theorem c6_already_shared_guard_witness :
    share_group_session cEnv cOutStore "!room" ["@a", "@b"] =
      .err .already_shared_error cOutStore (some cOutput.session) := by
  have h : share_group_session cEnv cStore "!room" ["@a", "@b"] = .ok cOutStore cOutput :=
    rfl
  exact c6_already_shared_guard.2 cEnv cStore "!room" ["@a", "@b"] cOutStore cOutput h
    (by decide)

/-- C7: a fresh outbound session is created exactly when no session exists
for the room or the stored one is expired; creation synchronously writes the
mirrored inbound session keyed by (room, sender identity key, session id)
into the store carried by every outcome, and a successful call returns the
fresh session; when an unexpired session exists, no inbound session is
written. -/
theorem c7_session_creation (env : ShareEnv) (st : CryptoStore) (room : String)
    (users : List String) :
    ((alGet st.outbound room = none ∨
      (∃ s, alGet st.outbound room = some s ∧ s.expired env.now = true)) →
      alGet (share_group_session env st room users).store.inbound
          (room, env.machine.identity_key, env.fresh_id) =
        some { session_key := env.fresh_key, signing_key := env.machine.signing_key,
               sender_key := env.machine.identity_key, room_id := room } ∧
      (∀ st' out, share_group_session env st room users = .ok st' out →
        out.session.id = env.fresh_id)) ∧
    ((∃ s, alGet st.outbound room = some s ∧ s.expired env.now = false) →
      (share_group_session env st room users).store.inbound = st.inbound) := by
  constructor
  · intro hc
    have hg : share_guard env.now (alGet st.outbound room) = false := by
      cases hgv : share_guard env.now (alGet st.outbound room)
      · rfl
      · obtain ⟨s, hs, _, hne⟩ := (share_guard_iff env.now _).mp hgv
        rcases hc with hn | ⟨s', hs', he'⟩
        · rw [hn] at hs
          cases hs
        · rw [hs'] at hs
          cases hs
          rw [he'] at hne
          cases hne
    have hres : resolve_session env st room = new_outbound_group_session env st room :=
      resolve_session_create env st room hc
    constructor
    · rw [share_store_inbound env st room users hg, hres,
          (new_outbound_session_spec env st room).2]
      simp [alGet_alSet]
    · intro st' out hok
      obtain ⟨hg', s0, hs0, hph⟩ := share_ok_spec env st room users st' out hok
      obtain ⟨_, _, hsession, _, _, _, _⟩ :=
        share_phases_ok_iff env _ room users s0 st' out hph
      have hid0 : s0.id = env.fresh_id := by
        rcases hs0 with ⟨_, rfl⟩ | ⟨info, _, _, rfl⟩ <;>
          rw [hres, (new_outbound_session_spec env st room).1] <;> rfl
      have hframe := share_acc2_frame env users s0
      rw [hsession]
      show (share_acc2 env users s0).session.id = env.fresh_id
      rw [hframe.2.1, hid0]
  · intro ⟨s, hs, he⟩
    by_cases hg : share_guard env.now (alGet st.outbound room) = true
    · rw [share_group_session_guard_eq env st room users hg]
      rfl
    · have hg' : share_guard env.now (alGet st.outbound room) = false := by
        cases hgv : share_guard env.now (alGet st.outbound room)
        · rfl
        · exact absurd hgv hg
      rw [share_store_inbound env st room users hg',
          resolve_session_reuse env st room s hs he]

/-- C7 witness: sharing from the empty store creates the fresh session and
mirrors it in the inbound store. -/
theorem c7_session_creation_witness :
    alGet cOutcome.store.inbound ("!room", "me-ik", "SESS") =
      some { session_key := "KEY", signing_key := "me-sk", sender_key := "me-ik",
             room_id := "!room" } :=
  ((c7_session_creation cEnv cStore "!room" ["@a", "@b"]).1 (Or.inl rfl)).1

/-- C8: when the room's encryption policy is present, configured rotation
thresholds (truthy `rotation_period_msgs` / `rotation_period_ms`) overwrite
the session's `max_messages` / `max_age`, and unconfigured ones leave the
stored session's values unchanged. -/
theorem c8_rotation_policy_overwrite (env : ShareEnv) (st : CryptoStore) (room : String)
    (users : List String) (s : OutboundGroupSession) (info : EncryptionInfo)
    (st' : CryptoStore) (out : ShareOutput)
    (hs : alGet st.outbound room = some s) (he : s.expired env.now = false)
    (hinfo : env.get_encryption_info room = some info)
    (hok : share_group_session env st room users = .ok st' out) :
    (∀ n, info.rotation_period_msgs = some n → n ≠ 0 →
      out.session.max_messages = n) ∧
    (info.rotation_period_msgs = none → out.session.max_messages = s.max_messages) ∧
    (∀ n, info.rotation_period_ms = some n → n ≠ 0 → out.session.max_age = n) ∧
    (info.rotation_period_ms = none → out.session.max_age = s.max_age) := by
  obtain ⟨hg, s0, hs0, hph⟩ := share_ok_spec env st room users st' out hok
  obtain ⟨_, _, hsession, _, _, _, _⟩ :=
    share_phases_ok_iff env _ room users s0 st' out hph
  have hres : resolve_session env st room = (s, st) :=
    resolve_session_reuse env st room s hs he
  have hs0v : s0 = apply_encryption_info info s := by
    rcases hs0 with ⟨hnone, _⟩ | ⟨info', hinfo', _, hv⟩
    · rw [hinfo] at hnone
      cases hnone
    · rw [hinfo] at hinfo'
      cases hinfo'
      rw [hv, hres]
  have hframe := share_acc2_frame env users s0
  have hmm : out.session.max_messages = s0.max_messages := by
    rw [hsession]
    show (share_acc2 env users s0).session.max_messages = s0.max_messages
    exact hframe.2.2.2.2.2.2.1
  have hma : out.session.max_age = s0.max_age := by
    rw [hsession]
    show (share_acc2 env users s0).session.max_age = s0.max_age
    exact hframe.2.2.2.2.2.2.2
  refine ⟨?_, ?_, ?_, ?_⟩
  · intro n hn hn0
    rw [hmm, hs0v]
    show (if optTruthy info.rotation_period_msgs then
        info.rotation_period_msgs.getD s.max_messages else s.max_messages) = n
    rw [hn]
    simp [optTruthy, hn0]
  · intro hn
    rw [hmm, hs0v]
    show (if optTruthy info.rotation_period_msgs then
        info.rotation_period_msgs.getD s.max_messages else s.max_messages) = s.max_messages
    rw [hn]
    simp [optTruthy]
  · intro n hn hn0
    rw [hma, hs0v]
    show (if optTruthy info.rotation_period_ms then
        info.rotation_period_ms.getD s.max_age else s.max_age) = n
    rw [hn]
    simp [optTruthy, hn0]
  · intro hn
    rw [hma, hs0v]
    show (if optTruthy info.rotation_period_ms then
        info.rotation_period_ms.getD s.max_age else s.max_age) = s.max_age
    rw [hn]
    simp [optTruthy]

/-- Concrete encryption policy: Megolm, 50-message rotation, no millisecond
threshold. -/
def cInfo : EncryptionInfo :=
  { algorithm := .megolm_v1, rotation_period_msgs := some 50,
    rotation_period_ms := none }

/-- `cEnv` with the room policy present. -/
def cEnv8 : ShareEnv := { cEnv with get_encryption_info := fun _ => some cInfo }

/-- Store holding the fresh unexpired session for `!room`. -/
def cStore8 : CryptoStore := { outbound := [("!room", cSessionFresh)], inbound := [] }

/-- The concrete outcome under the rotation policy. -/
def cOutcome8 : ShareOutcome := share_group_session cEnv8 cStore8 "!room" ["@a", "@b"]

/-- The success output of `cOutcome8`. -/
def cOutput8 : ShareOutput :=
  match cOutcome8 with
  | .ok _ o => o
  | .err _ _ _ => dummyOutput

/-- C8 witness: the configured 50-message threshold overwrites
`max_messages`; the unconfigured millisecond threshold leaves `max_age` at
the stored session's value. -/
theorem c8_rotation_policy_overwrite_witness :
    cOutput8.session.max_messages = 50 ∧ cOutput8.session.max_age = 604800000 := by
  have h : share_group_session cEnv8 cStore8 "!room" ["@a", "@b"] =
      .ok cOutcome8.store cOutput8 := rfl
  have hc := c8_rotation_policy_overwrite cEnv8 cStore8 "!room" ["@a", "@b"]
    cSessionFresh cInfo cOutcome8.store cOutput8 (by decide) (by decide) rfl h
  exact ⟨hc.1 50 rfl (by decide), hc.2.2.2 rfl⟩

/-- C9: the session is marked shared and persisted only after both bulk
dispatches: success implies both sends succeeded, the returned session is
shared and is exactly what was persisted for the room; a dispatch failure
leaves the carried session unshared and the outbound store untouched. -/
theorem c9_shared_only_after_dispatch (env : ShareEnv) (st : CryptoStore) (room : String)
    (users : List String) :
    (∀ st' out, share_group_session env st room users = .ok st' out →
      env.send_encrypted_ok = true ∧ env.send_withheld_ok = true ∧
      out.session.shared = true ∧ alGet st'.outbound room = some out.session) ∧
    (∀ st' so, share_group_session env st room users = .err .send_failed st' so →
      (∃ sess, so = some sess ∧ sess.shared = false) ∧ st'.outbound = st.outbound) := by
  constructor
  · intro st' out hok
    obtain ⟨hg, s0, hs0, hph⟩ := share_ok_spec env st room users st' out hok
    obtain ⟨hse, hsw, hsession, _, _, _, hst'⟩ :=
      share_phases_ok_iff env _ room users s0 st' out hph
    refine ⟨hse, hsw, by rw [hsession], ?_⟩
    rw [hst', hsession]
    simp [alGet_alSet]
  · intro st' so herr
    obtain he | ⟨hg, hst, hrest⟩ := share_err_spec env st room users _ st' so herr
    · cases he.1
    · rcases hrest with ⟨he, _⟩ | ⟨_, _, s0, hs0, hso⟩
      · cases he
      · have hsh0 : s0.shared = false := by
          rcases hs0 with ⟨_, rfl⟩ | ⟨info, _, _, rfl⟩
          · exact resolve_session_unshared env st room hg
          · show (resolve_session env st room).1.shared = false
            exact resolve_session_unshared env st room hg
        have hframe := share_acc2_frame env users s0
        refine ⟨⟨(share_acc2 env users s0).session, hso, ?_⟩, ?_⟩
        · rw [hframe.2.2.2.1, hsh0]
        · rw [hst]
          exact resolve_session_outbound env st room

/-- `cEnv` with the encrypted-to-device dispatch failing. -/
def cEnv9 : ShareEnv := { cEnv with send_encrypted_ok := false }

/-- The concrete outcome under the failing dispatch. -/
def cOutcome9 : ShareOutcome := share_group_session cEnv9 cStore "!room" ["@a", "@b"]

/-- The session carried by an error outcome. -/
def errSession (o : ShareOutcome) : Option OutboundGroupSession :=
  match o with
  | .err _ _ so => so
  | .ok _ _ => none

/-- C9 witness: with the encrypted dispatch failing, the call errors with an
unshared session and an untouched outbound store. -/
theorem c9_shared_only_after_dispatch_witness :
    (∃ sess, errSession cOutcome9 = some sess ∧ sess.shared = false) ∧
    cOutcome9.store.outbound = cStore.outbound :=
  (c9_shared_only_after_dispatch cEnv9 cStore "!room" ["@a", "@b"]).2
    cOutcome9.store (errSession cOutcome9) rfl

/-- Environment exhibiting the C2 divergence: `@a` is known to storage with
verified device `d1` that has no pairwise channel yet (so `d1` lands in the
missing pool); `@b` was never fetched; the directory query — which the code
issues for the full `users` list — returns an empty device map for `@a` and
device `e1` for `@b`; after bulk establishment both identity keys have
channels; both dispatches succeed. -/
def cEnv2 : ShareEnv :=
  { machine := cMachine, now := 1000, fresh_id := "SESS", fresh_key := "KEY",
    default_max_messages := 100, default_max_age := 604800000,
    get_devices := fun u => if u = "@a" then some [("d1", cDevA1)] else none,
    get_encryption_info := fun _ => none,
    fetch_keys_fn := fun us _ =>
      us.map (fun u => if u = "@b" then (u, [("e1", cDevB1)]) else (u, [])),
    channels := fun _ => none,
    channels_after := fun ik =>
      if ik = "ikA1" then some 7 else if ik = "ikB1" then some 9 else none,
    send_encrypted_ok := true, send_withheld_ok := true }

/-- The concrete outcome of the C2 scenario. -/
def cOutcome2 : ShareOutcome := share_group_session cEnv2 cStore "!room" ["@a", "@b"]

/-- The success output of `cOutcome2`. -/
def cOutput2 : ShareOutput :=
  match cOutcome2 with
  | .ok _ o => o
  | .err _ _ _ => dummyOutput

/-- C2 divergence evidence: the key fetch is issued for the full users list
`["@a", "@b"]` rather than for the unknown set `["@b"]` alone, and the
fetched (empty) entry for `@a` replaces — rather than merges with — `@a`'s
missing-pool entry: device `d1` is dropped from both output maps even though
a pairwise channel for its identity key exists after bulk establishment,
whereas under the claimed behavior the pool would still contain `d1` and the
second pass would deliver to it. -/
theorem c2_fetch_arg_and_pool_clobber :
    cOutput2.fetch_arg = some ["@a", "@b"] ∧
    udMem cOutput2.share_key_msgs "@a" "d1" = false ∧
    udMem cOutput2.withhold_key_msgs "@a" "d1" = false ∧
    udMem cOutput2.share_key_msgs "@b" "e1" = true ∧
    cEnv2.channels_after "ikA1" = some 7 := by
  decide

/-- C10: the user-data query methods raise a `MatrixResponseError` naming
the missing required field instead of defaulting — `search_users` names
`results` or `limited`, reports "Invalid user in search results" when an
entry fails to deserialize, and otherwise returns the field values
unchanged; `get_displayname` names `displayname` or returns the value
unchanged. -/
theorem c10_user_data_missing_fields :
    (∀ (deser : UserDeserializer) (content : Content),
       alGet content "results" = none →
       search_users deser content =
         .error (.matrix_response_error "`results` not in content.")) ∧
    (∀ (deser : UserDeserializer) (content : Content) (entries : List String) (e : Unit),
       alGet content "results" = some (.arr entries) →
       deserializeAll deser entries = .error e →
       search_users deser content =
         .error (.matrix_response_error "Invalid user in search results")) ∧
    (∀ (deser : UserDeserializer) (content : Content) (entries us : List String),
       alGet content "results" = some (.arr entries) →
       deserializeAll deser entries = .ok us →
       alGet content "limited" = none →
       search_users deser content =
         .error (.matrix_response_error "`limited` not in content.")) ∧
    (∀ (deser : UserDeserializer) (content : Content) (entries us : List String)
        (lv : JValue),
       alGet content "results" = some (.arr entries) →
       deserializeAll deser entries = .ok us →
       alGet content "limited" = some lv →
       search_users deser content = .ok { results := us, limited := lv }) ∧
    (∀ content : Content, alGet content "displayname" = none →
       get_displayname content =
         .error (.matrix_response_error "`displayname` not in response.")) ∧
    (∀ (content : Content) (v : JValue), alGet content "displayname" = some v →
       get_displayname content = .ok v) := by
  refine ⟨?_, ?_, ?_, ?_, ?_, ?_⟩
  · intro deser content h
    simp [search_users, h]
  · intro deser content entries e h hd
    simp [search_users, h, hd]
  · intro deser content entries us h hd hl
    simp [search_users, h, hd, hl]
  · intro deser content entries us lv h hd hl
    simp [search_users, h, hd, hl]
  · intro content h
    simp [get_displayname, h]
  · intro content v h
    simp [get_displayname, h]

/-- Deserializer that accepts every raw entry unchanged. -/
def cDeserOk : UserDeserializer := fun s => .ok s

/-- C10 witness: concrete responses — a missing `results` key, a complete
search response, and a present `displayname` — behave as the theorem
states. -/
theorem c10_user_data_missing_fields_witness :
    search_users cDeserOk [("limited", .bool true)] =
      .error (.matrix_response_error "`results` not in content.") ∧
    search_users cDeserOk [("results", .arr ["u1"]), ("limited", .bool false)] =
      .ok { results := ["u1"], limited := .bool false } ∧
    get_displayname [("displayname", .str "Alice")] = .ok (.str "Alice") :=
  ⟨c10_user_data_missing_fields.1 cDeserOk _ (by decide),
   c10_user_data_missing_fields.2.2.2.1 cDeserOk _ ["u1"] ["u1"] (.bool false)
     (by decide) rfl (by decide),
   c10_user_data_missing_fields.2.2.2.2.2 _ (.str "Alice") (by decide)⟩

end Mautrix
